import Mathlib

/-
Verification of the symbolic `Formula` core of drake
(src/drake/common/symbolic_formula.cc): data model, canonicalizing
constructors, structural equality with the hash fast path, free-variable
extraction and boolean evaluation, embedded shallowly in Lean.
-/

set_option maxHeartbeats 1000000

namespace DrakeSymbolic

/-- Modelled from the spec: the external identity-bearing symbolic leaf
`Variable` (spec section 6; its implementation is outside this fragment).
Each variable carries a numeric identity; `get_hash` reduces the identity
to the machine word, so distinct identities may share a hash. -/
structure Variable where
  id : Nat
  deriving DecidableEq, Repr

/-- Modelled from the spec: variable hashing, word-sized. -/
def Variable.get_hash (v : Variable) : Nat := v.id % 2^64

/-- Modelled from the spec: the external set container `Variables`
(empty construction, set difference, equality, union via insertion). -/
abbrev Variables := Finset Variable

/-- Modelled from the spec: `Variables::get_hash`, a word-sized digest of the
element hashes (needed only by the Forall cell constructor). -/
def Variables.get_hash (s : Variables) : Nat := (s.sum fun v => v.get_hash) % 2^64

instance : LeftCommutative (fun (v : Variable) (s : Variables) => insert v s) :=
  ⟨fun a b s => Finset.Insert.comm a b s⟩

/-- Modelled from the spec: the C++ idiom `ret.insert(other.begin(), other.end())`
used by every GetFreeVariables override, element-by-element set insertion. -/
def Variables.insertAll (ret other : Variables) : Variables :=
  Multiset.foldr (fun v s => insert v s) ret other.val

/-- Modelled from the spec: the external `Environment`, a mapping from
variables to numeric values consulted during evaluation. -/
abbrev Environment := List (Variable × Int)

/-- Modelled from the spec: environment lookup by variable. -/
def Environment.find (env : Environment) (v : Variable) : Option Int :=
  List.lookup v env

/-- Modelled from the spec: the external arithmetic-term sub-language
`Expression`, consumed only through get_hash, EqualTo, GetVariables,
Evaluate and numeric-literal construction (spec section 6). A minimal model
with variable leaves and numeric constants realizes that interface; the
numeric domain of the C++ double is modelled by `Int`. -/
inductive Expression where
  | var (v : Variable)
  | const (c : Int)
  deriving DecidableEq, Repr

/-- Modelled from the spec: expression hashing, word-sized; collisions are
possible and permitted by the contract. -/
def Expression.get_hash : Expression → Nat
  | .var v => v.get_hash
  | .const c => (2 * c.natAbs + 1) % 2^64

/-- Modelled from the spec: `Expression::EqualTo`, structural equality of
terms, independent of hashing. -/
def Expression.EqualTo (e1 e2 : Expression) : Bool := decide (e1 = e2)

/-- Modelled from the spec: `Expression::GetVariables`. -/
def Expression.GetVariables : Expression → Variables
  | .var v => {v}
  | .const _ => ∅

/-- Modelled from the spec: `Expression::Evaluate`; a variable unbound in the
environment fails (never a silent placeholder value). -/
def Expression.Evaluate (e : Expression) (env : Environment) : Except String Int :=
  match e with
  | .var v =>
    match Environment.find env v with
    | some x => .ok x
    | none => .error "unbound variable"
  | .const c => .ok c

/-- Modelled from the spec: `hash_combine` (the helper lives in
src/drake/common/hash_combine.h, outside this fragment); the spec requires
only `hash(node) = combine(kind, child_hashes_in_fixed_order)`, order
sensitive and word-sized. -/
def hash_combine (seed h : Nat) : Nat := (seed * 1000003 + h + 2654435769) % 2^64

/-- FormulaKind: the closed 12-member tag set; the enum is declared in the
header (outside this fragment), so the order here follows the order of the
cell classes in the implementation file. -/
inductive FormulaKind where
  | True | False | Eq | Neq | Gt | Geq | Lt | Leq | And | Or | Not | Forall
  deriving DecidableEq, Repr

/-- Modelled from the spec: the numeric code behind
`static_cast<size_t>(kind_)` in `FormulaCell::FormulaCell`. -/
def FormulaKind.code : FormulaKind → Nat
  | .True => 0
  | .False => 1
  | .Eq => 2
  | .Neq => 3
  | .Gt => 4
  | .Geq => 5
  | .Lt => 6
  | .Leq => 7
  | .And => 8
  | .Or => 9
  | .Not => 10
  | .Forall => 11

/-- Modelled from the spec: the implementation-defined value of the standard
string hash at "True", used by the FormulaTrue constructor. -/
def hashOfTrueString : Nat := 3569038

/-- Modelled from the spec: the implementation-defined value of the standard
string hash at "False", used by the FormulaFalse constructor. -/
def hashOfFalseString : Nat := 4568634

/-- Shallow embedding of the `Formula` handle over its closed `FormulaCell`
family (spec section 3): True, False, six relational kinds, And, Or, Not and
Forall. Cells are immutable and a handle is a plain value; identity of the
shared underlying node is not observable here except through the fast path
of `EqualTo`, modelled separately in `EqualToPtr`. -/
inductive Formula where
  | trueF
  | falseF
  | eqF (e1 e2 : Expression)
  | neqF (e1 e2 : Expression)
  | gtF (e1 e2 : Expression)
  | geqF (e1 e2 : Expression)
  | ltF (e1 e2 : Expression)
  | leqF (e1 e2 : Expression)
  | andF (f1 f2 : Formula)
  | orF (f1 f2 : Formula)
  | notF (f : Formula)
  | forallF (vars : Variables) (f : Formula)
  deriving DecidableEq

/-- Formula::get_kind, the fixed tag of the underlying cell. -/
def Formula.get_kind : Formula → FormulaKind
  | .trueF => .True
  | .falseF => .False
  | .eqF _ _ => .Eq
  | .neqF _ _ => .Neq
  | .gtF _ _ => .Gt
  | .geqF _ _ => .Geq
  | .ltF _ _ => .Lt
  | .leqF _ _ => .Leq
  | .andF _ _ => .And
  | .orF _ _ => .Or
  | .notF _ => .Not
  | .forallF _ _ => .Forall

/-- Formula::get_hash, the hash precomputed at cell construction: each cell
subclass combines its child hashes in fixed order, and
`FormulaCell::FormulaCell` combines the kind code on top of that. -/
def Formula.get_hash : Formula → Nat
  | .trueF => hash_combine FormulaKind.True.code hashOfTrueString
  | .falseF => hash_combine FormulaKind.False.code hashOfFalseString
  | .eqF e1 e2 => hash_combine FormulaKind.Eq.code (hash_combine e1.get_hash e2.get_hash)
  | .neqF e1 e2 => hash_combine FormulaKind.Neq.code (hash_combine e1.get_hash e2.get_hash)
  | .gtF e1 e2 => hash_combine FormulaKind.Gt.code (hash_combine e1.get_hash e2.get_hash)
  | .geqF e1 e2 => hash_combine FormulaKind.Geq.code (hash_combine e1.get_hash e2.get_hash)
  | .ltF e1 e2 => hash_combine FormulaKind.Lt.code (hash_combine e1.get_hash e2.get_hash)
  | .leqF e1 e2 => hash_combine FormulaKind.Leq.code (hash_combine e1.get_hash e2.get_hash)
  | .andF f1 f2 => hash_combine FormulaKind.And.code (hash_combine f1.get_hash f2.get_hash)
  | .orF f1 f2 => hash_combine FormulaKind.Or.code (hash_combine f1.get_hash f2.get_hash)
  | .notF f => hash_combine FormulaKind.Not.code f.get_hash
  | .forallF vs f =>
    hash_combine FormulaKind.Forall.code (hash_combine (Variables.get_hash vs) f.get_hash)

/-- Formula::EqualTo without the pointer-identity fast path (cell identity is
not observable in the shallow embedding; `EqualToPtr` makes it explicit):
different kind gives false, then different hash gives false, then the
virtual FormulaCell::EqualTo of the receiver decides by comparing children
in order, each child pair compared again through Formula::EqualTo. The cell
dispatch is inlined here to keep the recursion structural; `cellEqualTo`
states it separately and `EqualTo_eq_cell` recovers the delegation. -/
def Formula.EqualTo : Formula → Formula → Bool
  | f1, f2 =>
    if f1.get_kind != f2.get_kind then false
    else if f1.get_hash != f2.get_hash then false
    else
      match f1, f2 with
      | .trueF, g => FormulaKind.True == g.get_kind
      | .falseF, g => FormulaKind.False == g.get_kind
      | .eqF a b, .eqF c d => a.EqualTo c && b.EqualTo d
      | .eqF _ _, _ => false
      | .neqF a b, .neqF c d => a.EqualTo c && b.EqualTo d
      | .neqF _ _, _ => false
      | .gtF a b, .gtF c d => a.EqualTo c && b.EqualTo d
      | .gtF _ _, _ => false
      | .geqF a b, .geqF c d => a.EqualTo c && b.EqualTo d
      | .geqF _ _, _ => false
      | .ltF a b, .ltF c d => a.EqualTo c && b.EqualTo d
      | .ltF _ _, _ => false
      | .leqF a b, .leqF c d => a.EqualTo c && b.EqualTo d
      | .leqF _ _, _ => false
      | .andF a b, .andF c d => Formula.EqualTo a c && Formula.EqualTo b d
      | .andF _ _, _ => false
      | .orF a b, .orF c d => Formula.EqualTo a c && Formula.EqualTo b d
      | .orF _ _, _ => false
      | .notF a, .notF c => Formula.EqualTo a c
      | .notF _, _ => false
      | .forallF vs a, .forallF ws c => decide (vs = ws) && Formula.EqualTo a c
      | .forallF _ _, _ => false

/-- FormulaCell::EqualTo virtual dispatch: each cell subclass checks the
kind and then compares its children in order (the kind guard followed by the
static_cast is realized by matching on both constructors); child formulas
are compared through Formula::EqualTo. -/
def Formula.cellEqualTo (f1 f2 : Formula) : Bool :=
  match f1, f2 with
  | .trueF, g => FormulaKind.True == g.get_kind
  | .falseF, g => FormulaKind.False == g.get_kind
  | .eqF a b, .eqF c d => a.EqualTo c && b.EqualTo d
  | .eqF _ _, _ => false
  | .neqF a b, .neqF c d => a.EqualTo c && b.EqualTo d
  | .neqF _ _, _ => false
  | .gtF a b, .gtF c d => a.EqualTo c && b.EqualTo d
  | .gtF _ _, _ => false
  | .geqF a b, .geqF c d => a.EqualTo c && b.EqualTo d
  | .geqF _ _, _ => false
  | .ltF a b, .ltF c d => a.EqualTo c && b.EqualTo d
  | .ltF _ _, _ => false
  | .leqF a b, .leqF c d => a.EqualTo c && b.EqualTo d
  | .leqF _ _, _ => false
  | .andF a b, .andF c d => Formula.EqualTo a c && Formula.EqualTo b d
  | .andF _ _, _ => false
  | .orF a b, .orF c d => Formula.EqualTo a c && Formula.EqualTo b d
  | .orF _ _, _ => false
  | .notF a, .notF c => Formula.EqualTo a c
  | .notF _, _ => false
  | .forallF vs a, .forallF ws c => decide (vs = ws) && Formula.EqualTo a c
  | .forallF _ _, _ => false

/-- Formula::EqualTo with the pointer-identity fast path made explicit:
`samePtr` stands for the C++ test `ptr_ == f.ptr_`, identity of the two
shared cells, which is checked before kind, hash and cell comparison. -/
def Formula.EqualToPtr (samePtr : Bool) (f1 f2 : Formula) : Bool :=
  if samePtr then true
  else if f1.get_kind != f2.get_kind then false
  else if f1.get_hash != f2.get_hash then false
  else Formula.cellEqualTo f1 f2

/-- Formula::GetFreeVariables via the per-cell overrides: relational cells
insert the variables of e2 into those of e1; And and Or do the same with the
free variables of their children; Not passes through; Forall subtracts the
bound set. -/
def Formula.GetFreeVariables : Formula → Variables
  | .trueF => ∅
  | .falseF => ∅
  | .eqF e1 e2 => Variables.insertAll e1.GetVariables e2.GetVariables
  | .neqF e1 e2 => Variables.insertAll e1.GetVariables e2.GetVariables
  | .gtF e1 e2 => Variables.insertAll e1.GetVariables e2.GetVariables
  | .geqF e1 e2 => Variables.insertAll e1.GetVariables e2.GetVariables
  | .ltF e1 e2 => Variables.insertAll e1.GetVariables e2.GetVariables
  | .leqF e1 e2 => Variables.insertAll e1.GetVariables e2.GetVariables
  | .andF f1 f2 => Variables.insertAll f1.GetFreeVariables f2.GetFreeVariables
  | .orF f1 f2 => Variables.insertAll f1.GetFreeVariables f2.GetFreeVariables
  | .notF f => f.GetFreeVariables
  | .forallF vs f => f.GetFreeVariables \ vs

/-- Formula::Evaluate via the per-cell overrides. The And and Or cells use
the built-in boolean connectives of C++, which short-circuit: the second
child is evaluated only when the first does not already decide the result.
Relational cells evaluate both operands and compare; any failure below
propagates. The Forall cell throws a runtime error unconditionally. -/
def Formula.Evaluate : Formula → Environment → Except String Bool
  | .trueF, _ => .ok true
  | .falseF, _ => .ok false
  | .eqF e1 e2, env =>
    match e1.Evaluate env with
    | .error msg => .error msg
    | .ok v1 =>
      match e2.Evaluate env with
      | .error msg => .error msg
      | .ok v2 => .ok (decide (v1 = v2))
  | .neqF e1 e2, env =>
    match e1.Evaluate env with
    | .error msg => .error msg
    | .ok v1 =>
      match e2.Evaluate env with
      | .error msg => .error msg
      | .ok v2 => .ok (decide (v1 ≠ v2))
  | .gtF e1 e2, env =>
    match e1.Evaluate env with
    | .error msg => .error msg
    | .ok v1 =>
      match e2.Evaluate env with
      | .error msg => .error msg
      | .ok v2 => .ok (decide (v2 < v1))
  | .geqF e1 e2, env =>
    match e1.Evaluate env with
    | .error msg => .error msg
    | .ok v1 =>
      match e2.Evaluate env with
      | .error msg => .error msg
      | .ok v2 => .ok (decide (v2 ≤ v1))
  | .ltF e1 e2, env =>
    match e1.Evaluate env with
    | .error msg => .error msg
    | .ok v1 =>
      match e2.Evaluate env with
      | .error msg => .error msg
      | .ok v2 => .ok (decide (v1 < v2))
  | .leqF e1 e2, env =>
    match e1.Evaluate env with
    | .error msg => .error msg
    | .ok v1 =>
      match e2.Evaluate env with
      | .error msg => .error msg
      | .ok v2 => .ok (decide (v1 ≤ v2))
  | .andF f1 f2, env =>
    match f1.Evaluate env with
    | .error msg => .error msg
    | .ok b1 => if b1 then f2.Evaluate env else .ok false
  | .orF f1 f2, env =>
    match f1.Evaluate env with
    | .error msg => .error msg
    | .ok b1 => if b1 then .ok true else f2.Evaluate env
  | .notF f, env =>
    match f.Evaluate env with
    | .error msg => .error msg
    | .ok b => .ok (!b)
  | .forallF _ _, _ => .error "not implemented yet"

/-- operator&& on formulas, the canonicalizing conjunction builder. -/
def land (f1 f2 : Formula) : Formula :=
  if f1.get_kind == FormulaKind.False || f2.get_kind == FormulaKind.False then .falseF
  else if f1.get_kind == FormulaKind.True then f2
  else if f2.get_kind == FormulaKind.True then f1
  else .andF f1 f2

/-- operator|| on formulas, the canonicalizing disjunction builder. -/
def lor (f1 f2 : Formula) : Formula :=
  if f1.get_kind == FormulaKind.True || f2.get_kind == FormulaKind.True then .trueF
  else if f1.get_kind == FormulaKind.False then f2
  else if f2.get_kind == FormulaKind.False then f1
  else .orF f1 f2

/-- operator! on formulas, the canonicalizing negation builder; double
negation is left as it is. -/
def lnot (f : Formula) : Formula :=
  if f.get_kind == FormulaKind.True then .falseF
  else if f.get_kind == FormulaKind.False then .trueF
  else .notF f

/-- operator== on expressions: structurally equal operands simplify to True,
anything else allocates an Eq cell. -/
def feq (e1 e2 : Expression) : Formula :=
  if e1.EqualTo e2 then .trueF else .eqF e1 e2

/-- operator!= on expressions: structurally equal operands simplify to
False, anything else allocates a Neq cell. -/
def fneq (e1 e2 : Expression) : Formula :=
  if e1.EqualTo e2 then .falseF else .neqF e1 e2

/-- operator< on expressions: structurally equal operands simplify to False,
anything else allocates a Lt cell. -/
def flt (e1 e2 : Expression) : Formula :=
  if e1.EqualTo e2 then .falseF else .ltF e1 e2

/-- operator<= on expressions: structurally equal operands simplify to True,
anything else allocates a Leq cell. -/
def fleq (e1 e2 : Expression) : Formula :=
  if e1.EqualTo e2 then .trueF else .leqF e1 e2

/-- operator> on expressions: structurally equal operands simplify to False,
anything else allocates a Gt cell. -/
def fgt (e1 e2 : Expression) : Formula :=
  if e1.EqualTo e2 then .falseF else .gtF e1 e2

/-- operator>= on expressions: structurally equal operands simplify to True,
anything else allocates a Geq cell. -/
def fgeq (e1 e2 : Expression) : Formula :=
  if e1.EqualTo e2 then .trueF else .geqF e1 e2

/-- forall builder: no simplification, always a fresh Forall cell. -/
def fforall (vs : Variables) (f : Formula) : Formula := .forallF vs f

/-- Formula::EqualTo delegates to FormulaCell::EqualTo once the kind and
hash fast paths have not decided the comparison. -/
theorem Formula.EqualTo_eq_cell (f1 f2 : Formula) :
    f1.EqualTo f2 =
      if f1.get_kind != f2.get_kind then false
      else if f1.get_hash != f2.get_hash then false
      else Formula.cellEqualTo f1 f2 := by
  cases f1 <;> cases f2 <;> rfl

/-- A comparison that succeeds got past the hash fast path, hence the hashes
agree. -/
theorem Formula.EqualTo_hash_eq {f1 f2 : Formula} (h : f1.EqualTo f2 = true) :
    f1.get_hash = f2.get_hash := by
  rw [Formula.EqualTo_eq_cell] at h
  split at h
  · simp at h
  · split at h
    · simp at h
    · next h2 => simpa using h2

/-- A comparison that succeeds got past both fast paths, hence the cell
comparison succeeded. -/
theorem Formula.EqualTo_to_cell {f1 f2 : Formula} (h : f1.EqualTo f2 = true) :
    Formula.cellEqualTo f1 f2 = true := by
  rw [Formula.EqualTo_eq_cell] at h
  split at h
  · simp at h
  · split at h
    · simp at h
    · exact h

/-- Soundness of structural comparison: EqualTo never identifies two
structurally distinct formulas, hash collisions included. -/
theorem Formula.EqualTo_sound : ∀ f1 f2 : Formula, f1.EqualTo f2 = true → f1 = f2 := by
  intro f1
  induction f1 with
  | trueF =>
    intro f2 h
    have hc := Formula.EqualTo_to_cell h
    cases f2
    case trueF => rfl
    all_goals exact Bool.noConfusion hc
  | falseF =>
    intro f2 h
    have hc := Formula.EqualTo_to_cell h
    cases f2
    case falseF => rfl
    all_goals exact Bool.noConfusion hc
  | eqF a b =>
    intro f2 h
    have hc := Formula.EqualTo_to_cell h
    cases f2
    case eqF c d =>
      have hc2 : (Expression.EqualTo a c && Expression.EqualTo b d) = true := hc
      simp only [Bool.and_eq_true] at hc2
      rw [of_decide_eq_true hc2.1, of_decide_eq_true hc2.2]
    all_goals exact Bool.noConfusion hc
  | neqF a b =>
    intro f2 h
    have hc := Formula.EqualTo_to_cell h
    cases f2
    case neqF c d =>
      have hc2 : (Expression.EqualTo a c && Expression.EqualTo b d) = true := hc
      simp only [Bool.and_eq_true] at hc2
      rw [of_decide_eq_true hc2.1, of_decide_eq_true hc2.2]
    all_goals exact Bool.noConfusion hc
  | gtF a b =>
    intro f2 h
    have hc := Formula.EqualTo_to_cell h
    cases f2
    case gtF c d =>
      have hc2 : (Expression.EqualTo a c && Expression.EqualTo b d) = true := hc
      simp only [Bool.and_eq_true] at hc2
      rw [of_decide_eq_true hc2.1, of_decide_eq_true hc2.2]
    all_goals exact Bool.noConfusion hc
  | geqF a b =>
    intro f2 h
    have hc := Formula.EqualTo_to_cell h
    cases f2
    case geqF c d =>
      have hc2 : (Expression.EqualTo a c && Expression.EqualTo b d) = true := hc
      simp only [Bool.and_eq_true] at hc2
      rw [of_decide_eq_true hc2.1, of_decide_eq_true hc2.2]
    all_goals exact Bool.noConfusion hc
  | ltF a b =>
    intro f2 h
    have hc := Formula.EqualTo_to_cell h
    cases f2
    case ltF c d =>
      have hc2 : (Expression.EqualTo a c && Expression.EqualTo b d) = true := hc
      simp only [Bool.and_eq_true] at hc2
      rw [of_decide_eq_true hc2.1, of_decide_eq_true hc2.2]
    all_goals exact Bool.noConfusion hc
  | leqF a b =>
    intro f2 h
    have hc := Formula.EqualTo_to_cell h
    cases f2
    case leqF c d =>
      have hc2 : (Expression.EqualTo a c && Expression.EqualTo b d) = true := hc
      simp only [Bool.and_eq_true] at hc2
      rw [of_decide_eq_true hc2.1, of_decide_eq_true hc2.2]
    all_goals exact Bool.noConfusion hc
  | andF a b iha ihb =>
    intro f2 h
    have hc := Formula.EqualTo_to_cell h
    cases f2
    case andF c d =>
      have hc2 : (Formula.EqualTo a c && Formula.EqualTo b d) = true := hc
      simp only [Bool.and_eq_true] at hc2
      rw [iha c hc2.1, ihb d hc2.2]
    all_goals exact Bool.noConfusion hc
  | orF a b iha ihb =>
    intro f2 h
    have hc := Formula.EqualTo_to_cell h
    cases f2
    case orF c d =>
      have hc2 : (Formula.EqualTo a c && Formula.EqualTo b d) = true := hc
      simp only [Bool.and_eq_true] at hc2
      rw [iha c hc2.1, ihb d hc2.2]
    all_goals exact Bool.noConfusion hc
  | notF a iha =>
    intro f2 h
    have hc := Formula.EqualTo_to_cell h
    cases f2
    case notF c =>
      have hc2 : Formula.EqualTo a c = true := hc
      rw [iha c hc2]
    all_goals exact Bool.noConfusion hc
  | forallF vs a iha =>
    intro f2 h
    have hc := Formula.EqualTo_to_cell h
    cases f2
    case forallF ws c =>
      have hc2 : (decide (vs = ws) && Formula.EqualTo a c) = true := hc
      simp only [Bool.and_eq_true] at hc2
      rw [of_decide_eq_true hc2.1, iha c hc2.2]
    all_goals exact Bool.noConfusion hc

/-- C1: structurally equal formulas have equal hashes (EqualTo implies hash
equality), and EqualTo never returns true for structurally distinct
formulas, even when their hashes collide. -/
theorem equalTo_hash_contract :
    ∀ f1 f2 : Formula,
      (f1.EqualTo f2 = true → f1.get_hash = f2.get_hash) ∧
      (f1 ≠ f2 → f1.EqualTo f2 = false) := by
  intro f1 f2
  constructor
  · exact Formula.EqualTo_hash_eq
  · intro hne
    cases hb : f1.EqualTo f2
    · rfl
    · exact absurd (Formula.EqualTo_sound f1 f2 hb) hne

/-- Witness for C1 at a concrete hash collision: the two Lt formulas are
structurally distinct, their hashes agree, and EqualTo still returns
false. -/
theorem equalTo_hash_contract_witness :
    (Formula.ltF (Expression.var ⟨0⟩) (Expression.const 1)).get_hash =
      (Formula.ltF (Expression.var ⟨2^64⟩) (Expression.const 1)).get_hash ∧
    Formula.ltF (Expression.var ⟨0⟩) (Expression.const 1) ≠
      Formula.ltF (Expression.var ⟨2^64⟩) (Expression.const 1) ∧
    (Formula.ltF (Expression.var ⟨0⟩) (Expression.const 1)).EqualTo
      (Formula.ltF (Expression.var ⟨2^64⟩) (Expression.const 1)) = false :=
  ⟨by decide, by decide, (equalTo_hash_contract _ _).2 (by decide)⟩

/-- C2: EqualTo decides in this priority order: same cell identity gives
true; different kind gives false; different hash gives false; otherwise the
full recursive cell comparison decides. -/
theorem equalTo_shortcircuit_priority :
    ∀ (samePtr : Bool) (f1 f2 : Formula),
      (samePtr = true → Formula.EqualToPtr samePtr f1 f2 = true) ∧
      (samePtr = false → f1.get_kind ≠ f2.get_kind →
        Formula.EqualToPtr samePtr f1 f2 = false) ∧
      (samePtr = false → f1.get_kind = f2.get_kind → f1.get_hash ≠ f2.get_hash →
        Formula.EqualToPtr samePtr f1 f2 = false) ∧
      (samePtr = false → f1.get_kind = f2.get_kind → f1.get_hash = f2.get_hash →
        Formula.EqualToPtr samePtr f1 f2 = Formula.cellEqualTo f1 f2) := by
  intro samePtr f1 f2
  have hfalse : Formula.EqualToPtr false f1 f2 =
      if f1.get_kind != f2.get_kind then false
      else if f1.get_hash != f2.get_hash then false
      else Formula.cellEqualTo f1 f2 := rfl
  refine ⟨?_, ?_, ?_, ?_⟩
  · intro h
    subst h
    rfl
  · intro h hk
    subst h
    rw [hfalse, if_pos (bne_iff_ne.mpr hk)]
  · intro h hk hh
    subst h
    rw [hfalse, if_neg (by simp [hk]), if_pos (bne_iff_ne.mpr hh)]
  · intro h hk hh
    subst h
    rw [hfalse, if_neg (by simp [hk]), if_neg (by simp [hh])]

/-- Witness for C2 at concrete inputs: one instance per branch of the
priority order. -/
theorem equalTo_shortcircuit_priority_witness :
    Formula.EqualToPtr true Formula.trueF Formula.trueF = true ∧
    Formula.EqualToPtr false Formula.trueF Formula.falseF = false ∧
    Formula.EqualToPtr false (Formula.eqF (Expression.var ⟨0⟩) (Expression.const 1))
      (Formula.eqF (Expression.var ⟨0⟩) (Expression.const 2)) = false ∧
    Formula.EqualToPtr false Formula.trueF Formula.trueF =
      Formula.cellEqualTo Formula.trueF Formula.trueF :=
  ⟨(equalTo_shortcircuit_priority true Formula.trueF Formula.trueF).1 rfl,
   (equalTo_shortcircuit_priority false Formula.trueF Formula.falseF).2.1 rfl (by decide),
   (equalTo_shortcircuit_priority false _ _).2.2.1 rfl (by decide) (by decide),
   (equalTo_shortcircuit_priority false Formula.trueF Formula.trueF).2.2.2 rfl rfl rfl⟩

/-- C3: evaluating a Forall formula fails with the not-implemented error for
every bound set, body and environment. -/
theorem fforall_evaluate_not_implemented :
    ∀ (vs : Variables) (f : Formula) (env : Environment),
      (fforall vs f).Evaluate env = Except.error "not implemented yet" :=
  fun _ _ _ => rfl

/-- C4: identity and annihilator laws of the canonicalizing conjunction and
disjunction builders, in both operand orders, returning exactly the expected
formula value. -/
theorem land_lor_identity_laws :
    ∀ f : Formula,
      land Formula.trueF f = f ∧ land f Formula.trueF = f ∧
      land Formula.falseF f = Formula.falseF ∧ land f Formula.falseF = Formula.falseF ∧
      lor Formula.trueF f = Formula.trueF ∧ lor f Formula.trueF = Formula.trueF ∧
      lor Formula.falseF f = f ∧ lor f Formula.falseF = f := by
  intro f
  cases f <;> exact ⟨rfl, rfl, rfl, rfl, rfl, rfl, rfl, rfl⟩

/-- C5: relational builders simplify self-comparison to the matching
constant, and on structurally distinct operands allocate a node of the
matching kind holding the operands unchanged and in order. -/
theorem relational_builders_spec :
    ∀ e e1 e2 : Expression,
      (feq e e = Formula.trueF ∧ fneq e e = Formula.falseF ∧ flt e e = Formula.falseF ∧
        fleq e e = Formula.trueF ∧ fgt e e = Formula.falseF ∧ fgeq e e = Formula.trueF) ∧
      (e1 ≠ e2 →
        feq e1 e2 = Formula.eqF e1 e2 ∧ fneq e1 e2 = Formula.neqF e1 e2 ∧
        flt e1 e2 = Formula.ltF e1 e2 ∧ fleq e1 e2 = Formula.leqF e1 e2 ∧
        fgt e1 e2 = Formula.gtF e1 e2 ∧ fgeq e1 e2 = Formula.geqF e1 e2) := by
  intro e e1 e2
  constructor
  · exact ⟨by simp [feq, Expression.EqualTo], by simp [fneq, Expression.EqualTo],
      by simp [flt, Expression.EqualTo], by simp [fleq, Expression.EqualTo],
      by simp [fgt, Expression.EqualTo], by simp [fgeq, Expression.EqualTo]⟩
  · intro hne
    exact ⟨by simp [feq, Expression.EqualTo, hne], by simp [fneq, Expression.EqualTo, hne],
      by simp [flt, Expression.EqualTo, hne], by simp [fleq, Expression.EqualTo, hne],
      by simp [fgt, Expression.EqualTo, hne], by simp [fgeq, Expression.EqualTo, hne]⟩

/-- Witness for C5 at concrete distinct operands. -/
theorem relational_builders_spec_witness :
    feq (Expression.var ⟨0⟩) (Expression.const 0) =
      Formula.eqF (Expression.var ⟨0⟩) (Expression.const 0) ∧
    fneq (Expression.var ⟨0⟩) (Expression.const 0) =
      Formula.neqF (Expression.var ⟨0⟩) (Expression.const 0) ∧
    flt (Expression.var ⟨0⟩) (Expression.const 0) =
      Formula.ltF (Expression.var ⟨0⟩) (Expression.const 0) ∧
    fleq (Expression.var ⟨0⟩) (Expression.const 0) =
      Formula.leqF (Expression.var ⟨0⟩) (Expression.const 0) ∧
    fgt (Expression.var ⟨0⟩) (Expression.const 0) =
      Formula.gtF (Expression.var ⟨0⟩) (Expression.const 0) ∧
    fgeq (Expression.var ⟨0⟩) (Expression.const 0) =
      Formula.geqF (Expression.var ⟨0⟩) (Expression.const 0) :=
  (relational_builders_spec (Expression.const 0) (Expression.var ⟨0⟩)
    (Expression.const 0)).2 (by decide)

/-- C6: negation of the constants flips them, and double negation of a
formula that is neither constant builds a Not-of-Not node without
auto-collapsing. -/
theorem lnot_spec :
    lnot Formula.trueF = Formula.falseF ∧ lnot Formula.falseF = Formula.trueF ∧
    ∀ f : Formula, f.get_kind ≠ FormulaKind.True → f.get_kind ≠ FormulaKind.False →
      lnot (lnot f) = Formula.notF (Formula.notF f) := by
  refine ⟨rfl, rfl, ?_⟩
  intro f h1 h2
  cases f <;> first | rfl | (exact absurd rfl h1) | (exact absurd rfl h2)

/-- Witness for C6 at a concrete non-constant formula. -/
theorem lnot_spec_witness :
    lnot (lnot (Formula.eqF (Expression.var ⟨0⟩) (Expression.const 0))) =
      Formula.notF (Formula.notF (Formula.eqF (Expression.var ⟨0⟩) (Expression.const 0))) :=
  lnot_spec.2.2 (Formula.eqF (Expression.var ⟨0⟩) (Expression.const 0))
    (by decide) (by decide)

/-- The kind tag True identifies the True cell. -/
theorem Formula.kind_True_iff {f : Formula} :
    f.get_kind = FormulaKind.True ↔ f = Formula.trueF := by
  cases f <;> simp [Formula.get_kind]

/-- The kind tag False identifies the False cell. -/
theorem Formula.kind_False_iff {f : Formula} :
    f.get_kind = FormulaKind.False ↔ f = Formula.falseF := by
  cases f <;> simp [Formula.get_kind]

/-- Value-level case analysis of the conjunction builder. -/
theorem land_cases (f1 f2 : Formula) :
    land f1 f2 =
      if f1 = Formula.falseF ∨ f2 = Formula.falseF then Formula.falseF
      else if f1 = Formula.trueF then f2
      else if f2 = Formula.trueF then f1
      else Formula.andF f1 f2 := by
  cases f1 <;> cases f2 <;> simp [land, Formula.get_kind]

/-- Value-level case analysis of the disjunction builder. -/
theorem lor_cases (f1 f2 : Formula) :
    lor f1 f2 =
      if f1 = Formula.trueF ∨ f2 = Formula.trueF then Formula.trueF
      else if f1 = Formula.falseF then f2
      else if f2 = Formula.falseF then f1
      else Formula.orF f1 f2 := by
  cases f1 <;> cases f2 <;> simp [lor, Formula.get_kind]

/-- Value-level case analysis of the negation builder. -/
theorem lnot_cases (f : Formula) :
    lnot f =
      if f = Formula.trueF then Formula.falseF
      else if f = Formula.falseF then Formula.trueF
      else Formula.notF f := by
  cases f <;> simp [lnot, Formula.get_kind]

/-- Insertion of every element of a set is plain set union. -/
theorem Variables.insertAll_eq_union (ret other : Variables) :
    Variables.insertAll ret other = ret ∪ other := by
  induction other using Finset.induction_on with
  | empty => simp [Variables.insertAll]
  | @insert a s ha ih =>
    unfold Variables.insertAll at ih ⊢
    rw [Finset.insert_val_of_not_mem ha, Multiset.foldr_cons, ih,
      ← Finset.union_insert]

/-- Counterexample to C7 as stated: read with the canonicalizing builders,
the free-variable equations fail, because a simplification can drop a
subformula together with its variables; conjoining False with a formula
owning a free variable is such a case. -/
theorem getFreeVariables_algebra_counterexample :
    (land Formula.falseF (flt (Expression.var ⟨0⟩) (Expression.const 1))).GetFreeVariables ≠
      Formula.falseF.GetFreeVariables ∪
        (flt (Expression.var ⟨0⟩) (Expression.const 1)).GetFreeVariables := by
  decide

/-- C7 amended: the free-variable algebra holds at the node (cell) level,
for every And, Or, Not, Forall and relational cell and the two constants;
for the canonicalizing builders it holds whenever no simplification fires,
and `forall` never simplifies, so its builder equation holds as stated. -/
theorem getFreeVariables_algebra :
    ∀ (f1 f2 f : Formula) (vs : Variables) (e1 e2 : Expression),
      (Formula.andF f1 f2).GetFreeVariables = f1.GetFreeVariables ∪ f2.GetFreeVariables ∧
      (Formula.orF f1 f2).GetFreeVariables = f1.GetFreeVariables ∪ f2.GetFreeVariables ∧
      (Formula.notF f).GetFreeVariables = f.GetFreeVariables ∧
      (fforall vs f).GetFreeVariables = f.GetFreeVariables \ vs ∧
      (Formula.eqF e1 e2).GetFreeVariables = e1.GetVariables ∪ e2.GetVariables ∧
      (Formula.neqF e1 e2).GetFreeVariables = e1.GetVariables ∪ e2.GetVariables ∧
      (Formula.gtF e1 e2).GetFreeVariables = e1.GetVariables ∪ e2.GetVariables ∧
      (Formula.geqF e1 e2).GetFreeVariables = e1.GetVariables ∪ e2.GetVariables ∧
      (Formula.ltF e1 e2).GetFreeVariables = e1.GetVariables ∪ e2.GetVariables ∧
      (Formula.leqF e1 e2).GetFreeVariables = e1.GetVariables ∪ e2.GetVariables ∧
      Formula.trueF.GetFreeVariables = ∅ ∧ Formula.falseF.GetFreeVariables = ∅ :=
  fun f1 f2 f vs e1 e2 =>
    ⟨Variables.insertAll_eq_union _ _, Variables.insertAll_eq_union _ _, rfl, rfl,
     Variables.insertAll_eq_union _ _, Variables.insertAll_eq_union _ _,
     Variables.insertAll_eq_union _ _, Variables.insertAll_eq_union _ _,
     Variables.insertAll_eq_union _ _, Variables.insertAll_eq_union _ _, rfl, rfl⟩

/-- C8: evaluation is consistent with the matching numeric relation or
boolean connective on the evaluations of the children, for every builder
and every environment under which the children evaluate successfully. -/
theorem evaluate_consistency :
    ∀ (e1 e2 : Expression) (f1 f2 f : Formula) (env : Environment)
      (v1 v2 : Int) (b1 b2 b : Bool),
      Expression.Evaluate e1 env = Except.ok v1 →
      Expression.Evaluate e2 env = Except.ok v2 →
      Formula.Evaluate f1 env = Except.ok b1 →
      Formula.Evaluate f2 env = Except.ok b2 →
      Formula.Evaluate f env = Except.ok b →
      (feq e1 e2).Evaluate env = Except.ok (decide (v1 = v2)) ∧
      (fneq e1 e2).Evaluate env = Except.ok (decide (v1 ≠ v2)) ∧
      (flt e1 e2).Evaluate env = Except.ok (decide (v1 < v2)) ∧
      (fleq e1 e2).Evaluate env = Except.ok (decide (v1 ≤ v2)) ∧
      (fgt e1 e2).Evaluate env = Except.ok (decide (v2 < v1)) ∧
      (fgeq e1 e2).Evaluate env = Except.ok (decide (v2 ≤ v1)) ∧
      (land f1 f2).Evaluate env = Except.ok (b1 && b2) ∧
      (lor f1 f2).Evaluate env = Except.ok (b1 || b2) ∧
      (lnot f).Evaluate env = Except.ok (!b) := by
  intro e1 e2 f1 f2 f env v1 v2 b1 b2 b h1 h2 hf1 hf2 hf
  have hv12 : e1 = e2 → v1 = v2 := by
    intro he
    subst he
    rw [h1] at h2
    exact Except.ok.inj h2
  refine ⟨?_, ?_, ?_, ?_, ?_, ?_, ?_, ?_, ?_⟩
  · by_cases he : e1 = e2
    · have hv := hv12 he
      subst he
      simp [feq, Expression.EqualTo, Formula.Evaluate, hv]
    · simp [feq, Expression.EqualTo, he, Formula.Evaluate, h1, h2]
  · by_cases he : e1 = e2
    · have hv := hv12 he
      subst he
      simp [fneq, Expression.EqualTo, Formula.Evaluate, hv]
    · simp [fneq, Expression.EqualTo, he, Formula.Evaluate, h1, h2]
  · by_cases he : e1 = e2
    · have hv := hv12 he
      subst he
      simp [flt, Expression.EqualTo, Formula.Evaluate, hv]
    · simp [flt, Expression.EqualTo, he, Formula.Evaluate, h1, h2]
  · by_cases he : e1 = e2
    · have hv := hv12 he
      subst he
      simp [fleq, Expression.EqualTo, Formula.Evaluate, hv]
    · simp [fleq, Expression.EqualTo, he, Formula.Evaluate, h1, h2]
  · by_cases he : e1 = e2
    · have hv := hv12 he
      subst he
      simp [fgt, Expression.EqualTo, Formula.Evaluate, hv]
    · simp [fgt, Expression.EqualTo, he, Formula.Evaluate, h1, h2]
  · by_cases he : e1 = e2
    · have hv := hv12 he
      subst he
      simp [fgeq, Expression.EqualTo, Formula.Evaluate, hv]
    · simp [fgeq, Expression.EqualTo, he, Formula.Evaluate, h1, h2]
  · rw [land_cases]
    split
    · next hor =>
      have hb : (b1 && b2) = false := by
        rcases hor with h | h
        · subst h
          simp [Formula.Evaluate] at hf1
          simp [← hf1]
        · subst h
          simp [Formula.Evaluate] at hf2
          simp [← hf2]
      simp [Formula.Evaluate, hb]
    · split
      · next h1t =>
        subst h1t
        simp [Formula.Evaluate] at hf1
        simp [← hf1, hf2]
      · split
        · next h2t =>
          subst h2t
          simp [Formula.Evaluate] at hf2
          simp [← hf2, hf1]
        · cases hb1 : b1 <;> rw [hb1] at hf1 <;>
            simp [Formula.Evaluate, hf1, hf2]
  · rw [lor_cases]
    split
    · next hor =>
      have hb : (b1 || b2) = true := by
        rcases hor with h | h
        · subst h
          simp [Formula.Evaluate] at hf1
          simp [← hf1]
        · subst h
          simp [Formula.Evaluate] at hf2
          simp [← hf2]
      simp [Formula.Evaluate, hb]
    · split
      · next h1f =>
        subst h1f
        simp [Formula.Evaluate] at hf1
        simp [← hf1, hf2]
      · split
        · next h2f =>
          subst h2f
          simp [Formula.Evaluate] at hf2
          simp [← hf2, hf1]
        · cases hb1 : b1 <;> rw [hb1] at hf1 <;>
            simp [Formula.Evaluate, hf1, hf2]
  · rw [lnot_cases]
    split
    · next ht =>
      subst ht
      simp [Formula.Evaluate] at hf
      simp [Formula.Evaluate, ← hf]
    · split
      · next hfa =>
        subst hfa
        simp [Formula.Evaluate] at hf
        simp [Formula.Evaluate, ← hf]
      · simp [Formula.Evaluate, hf]

/-- Witness for C8 at concrete inputs: environment binding x to 3, the
literal 1, the term x, a true Lt child, and the two constants. -/
theorem evaluate_consistency_witness :
    (feq (Expression.const 1) (Expression.var ⟨0⟩)).Evaluate
      [((⟨0⟩ : Variable), (3 : Int))] = Except.ok (decide ((1 : Int) = 3)) ∧
    (fneq (Expression.const 1) (Expression.var ⟨0⟩)).Evaluate
      [((⟨0⟩ : Variable), (3 : Int))] = Except.ok (decide ((1 : Int) ≠ 3)) ∧
    (flt (Expression.const 1) (Expression.var ⟨0⟩)).Evaluate
      [((⟨0⟩ : Variable), (3 : Int))] = Except.ok (decide ((1 : Int) < 3)) ∧
    (fleq (Expression.const 1) (Expression.var ⟨0⟩)).Evaluate
      [((⟨0⟩ : Variable), (3 : Int))] = Except.ok (decide ((1 : Int) ≤ 3)) ∧
    (fgt (Expression.const 1) (Expression.var ⟨0⟩)).Evaluate
      [((⟨0⟩ : Variable), (3 : Int))] = Except.ok (decide ((3 : Int) < 1)) ∧
    (fgeq (Expression.const 1) (Expression.var ⟨0⟩)).Evaluate
      [((⟨0⟩ : Variable), (3 : Int))] = Except.ok (decide ((3 : Int) ≤ 1)) ∧
    (land (flt (Expression.var ⟨0⟩) (Expression.const 5)) Formula.falseF).Evaluate
      [((⟨0⟩ : Variable), (3 : Int))] = Except.ok (true && false) ∧
    (lor (flt (Expression.var ⟨0⟩) (Expression.const 5)) Formula.falseF).Evaluate
      [((⟨0⟩ : Variable), (3 : Int))] = Except.ok (true || false) ∧
    (lnot Formula.trueF).Evaluate
      [((⟨0⟩ : Variable), (3 : Int))] = Except.ok (!true) :=
  evaluate_consistency (Expression.const 1) (Expression.var ⟨0⟩)
    (flt (Expression.var ⟨0⟩) (Expression.const 5)) Formula.falseF Formula.trueF
    [((⟨0⟩ : Variable), (3 : Int))] 1 3 true false true rfl rfl rfl rfl rfl

/-- Missing bindings make expression evaluation fail (model of the
Environment/Expression contract). -/
theorem Expression.evaluate_fails_of_unbound {e : Expression} {v : Variable}
    {env : Environment} (hv : v ∈ e.GetVariables)
    (hmiss : Environment.find env v = none) :
    e.Evaluate env = Except.error "unbound variable" := by
  cases e with
  | var w =>
    have hw : v = w := by simpa [Expression.GetVariables] using hv
    subst hw
    simp [Expression.Evaluate, hmiss]
  | const c => simp [Expression.GetVariables] at hv

/-- Formulas without And or Or cells: on these, Evaluate cannot short
circuit past the subformula holding an unbound variable. -/
def Formula.noShortCircuit : Formula → Bool
  | .trueF | .falseF => true
  | .eqF _ _ | .neqF _ _ | .gtF _ _ | .geqF _ _ | .ltF _ _ | .leqF _ _ => true
  | .andF _ _ | .orF _ _ => false
  | .notF f => f.noShortCircuit
  | .forallF _ _ => true

/-- Counterexample to C9 as stated: the conjunction of a false Lt atom with
an atom over the unbound variable 1 evaluates to ok false, because the
built-in C++ conjunction short-circuits before reaching the unbound
variable, even though that variable is free in the formula. -/
theorem evaluate_missing_binding_counterexample :
    (⟨1⟩ : Variable) ∈ (land (flt (Expression.var ⟨0⟩) (Expression.const 1))
      (flt (Expression.var ⟨1⟩) (Expression.const 2))).GetFreeVariables ∧
    Environment.find [((⟨0⟩ : Variable), (5 : Int))] ⟨1⟩ = none ∧
    (land (flt (Expression.var ⟨0⟩) (Expression.const 1))
      (flt (Expression.var ⟨1⟩) (Expression.const 2))).Evaluate
        [((⟨0⟩ : Variable), (5 : Int))] = Except.ok false :=
  ⟨by decide, rfl, rfl⟩

/-- C9 amended: a missing binding for a free variable makes Evaluate fail
for every formula free of And and Or cells (relational atoms, Not chains,
Forall, constants); And and Or may short-circuit past the unbound branch
and return a boolean; a failure that does occur below propagates and is
never replaced by a placeholder value. -/
theorem evaluate_missing_binding_fails :
    ∀ (f : Formula) (env : Environment) (v : Variable),
      Formula.noShortCircuit f = true →
      v ∈ f.GetFreeVariables →
      Environment.find env v = none →
      (f.Evaluate env).toOption = none := by
  intro f env v
  induction f with
  | trueF =>
    intro _ hv _
    simp [Formula.GetFreeVariables] at hv
  | falseF =>
    intro _ hv _
    simp [Formula.GetFreeVariables] at hv
  | eqF e1 e2 =>
    intro _ hv hm
    have hv2 : v ∈ e1.GetVariables ∪ e2.GetVariables := by
      simpa [Formula.GetFreeVariables, Variables.insertAll_eq_union] using hv
    rcases Finset.mem_union.mp hv2 with h | h
    · simp [Formula.Evaluate, Except.toOption, Expression.evaluate_fails_of_unbound h hm]
    · cases he1 : e1.Evaluate env with
      | error msg => simp [Formula.Evaluate, Except.toOption, he1]
      | ok w => simp [Formula.Evaluate, Except.toOption, he1, Expression.evaluate_fails_of_unbound h hm]
  | neqF e1 e2 =>
    intro _ hv hm
    have hv2 : v ∈ e1.GetVariables ∪ e2.GetVariables := by
      simpa [Formula.GetFreeVariables, Variables.insertAll_eq_union] using hv
    rcases Finset.mem_union.mp hv2 with h | h
    · simp [Formula.Evaluate, Except.toOption, Expression.evaluate_fails_of_unbound h hm]
    · cases he1 : e1.Evaluate env with
      | error msg => simp [Formula.Evaluate, Except.toOption, he1]
      | ok w => simp [Formula.Evaluate, Except.toOption, he1, Expression.evaluate_fails_of_unbound h hm]
  | gtF e1 e2 =>
    intro _ hv hm
    have hv2 : v ∈ e1.GetVariables ∪ e2.GetVariables := by
      simpa [Formula.GetFreeVariables, Variables.insertAll_eq_union] using hv
    rcases Finset.mem_union.mp hv2 with h | h
    · simp [Formula.Evaluate, Except.toOption, Expression.evaluate_fails_of_unbound h hm]
    · cases he1 : e1.Evaluate env with
      | error msg => simp [Formula.Evaluate, Except.toOption, he1]
      | ok w => simp [Formula.Evaluate, Except.toOption, he1, Expression.evaluate_fails_of_unbound h hm]
  | geqF e1 e2 =>
    intro _ hv hm
    have hv2 : v ∈ e1.GetVariables ∪ e2.GetVariables := by
      simpa [Formula.GetFreeVariables, Variables.insertAll_eq_union] using hv
    rcases Finset.mem_union.mp hv2 with h | h
    · simp [Formula.Evaluate, Except.toOption, Expression.evaluate_fails_of_unbound h hm]
    · cases he1 : e1.Evaluate env with
      | error msg => simp [Formula.Evaluate, Except.toOption, he1]
      | ok w => simp [Formula.Evaluate, Except.toOption, he1, Expression.evaluate_fails_of_unbound h hm]
  | ltF e1 e2 =>
    intro _ hv hm
    have hv2 : v ∈ e1.GetVariables ∪ e2.GetVariables := by
      simpa [Formula.GetFreeVariables, Variables.insertAll_eq_union] using hv
    rcases Finset.mem_union.mp hv2 with h | h
    · simp [Formula.Evaluate, Except.toOption, Expression.evaluate_fails_of_unbound h hm]
    · cases he1 : e1.Evaluate env with
      | error msg => simp [Formula.Evaluate, Except.toOption, he1]
      | ok w => simp [Formula.Evaluate, Except.toOption, he1, Expression.evaluate_fails_of_unbound h hm]
  | leqF e1 e2 =>
    intro _ hv hm
    have hv2 : v ∈ e1.GetVariables ∪ e2.GetVariables := by
      simpa [Formula.GetFreeVariables, Variables.insertAll_eq_union] using hv
    rcases Finset.mem_union.mp hv2 with h | h
    · simp [Formula.Evaluate, Except.toOption, Expression.evaluate_fails_of_unbound h hm]
    · cases he1 : e1.Evaluate env with
      | error msg => simp [Formula.Evaluate, Except.toOption, he1]
      | ok w => simp [Formula.Evaluate, Except.toOption, he1, Expression.evaluate_fails_of_unbound h hm]
  | andF f1 f2 ih1 ih2 =>
    intro hns _ _
    simp [Formula.noShortCircuit] at hns
  | orF f1 f2 ih1 ih2 =>
    intro hns _ _
    simp [Formula.noShortCircuit] at hns
  | notF g ih =>
    intro hns hv hm
    have hns2 : Formula.noShortCircuit g = true := hns
    have hv2 : v ∈ g.GetFreeVariables := hv
    have := ih hns2 hv2 hm
    cases hge : g.Evaluate env with
    | error msg => simp [Formula.Evaluate, Except.toOption, hge]
    | ok bg => rw [hge] at this; simp [Except.toOption] at this
  | forallF vs g ih =>
    intro _ _ _
    simp [Formula.Evaluate, Except.toOption]

/-- Witness for C9 amended: a single unbound relational atom fails. -/
theorem evaluate_missing_binding_fails_witness :
    ((flt (Expression.var ⟨1⟩) (Expression.const 2)).Evaluate
      [((⟨0⟩ : Variable), (5 : Int))]).toOption = none :=
  evaluate_missing_binding_fails (flt (Expression.var ⟨1⟩) (Expression.const 2))
    [((⟨0⟩ : Variable), (5 : Int))] ⟨1⟩ (by decide) (by decide) (by decide)

/-- Canonical-form checker: at every node, no And or Or cell has a child of
kind True or False, no Not cell has a body of kind True or False, and no
relational cell has structurally equal operands. -/
def Formula.Canonical : Formula → Bool
  | .trueF | .falseF => true
  | .eqF e1 e2 => !(e1.EqualTo e2)
  | .neqF e1 e2 => !(e1.EqualTo e2)
  | .gtF e1 e2 => !(e1.EqualTo e2)
  | .geqF e1 e2 => !(e1.EqualTo e2)
  | .ltF e1 e2 => !(e1.EqualTo e2)
  | .leqF e1 e2 => !(e1.EqualTo e2)
  | .andF f1 f2 =>
    f1.get_kind != FormulaKind.True && f1.get_kind != FormulaKind.False &&
    f2.get_kind != FormulaKind.True && f2.get_kind != FormulaKind.False &&
    f1.Canonical && f2.Canonical
  | .orF f1 f2 =>
    f1.get_kind != FormulaKind.True && f1.get_kind != FormulaKind.False &&
    f2.get_kind != FormulaKind.True && f2.get_kind != FormulaKind.False &&
    f1.Canonical && f2.Canonical
  | .notF f =>
    f.get_kind != FormulaKind.True && f.get_kind != FormulaKind.False && f.Canonical
  | .forallF _ f => f.Canonical

/-- Formulas reachable through the public constructors: the True and False
accessors, the relational builders over arbitrary expressions, and the
connective and quantifier builders over reachable formulas. Cells are
immutable, so closure under these constructors is preservation by every
operation. -/
inductive Reachable : Formula → Prop where
  | trueR : Reachable Formula.trueF
  | falseR : Reachable Formula.falseF
  | eqR (e1 e2 : Expression) : Reachable (feq e1 e2)
  | neqR (e1 e2 : Expression) : Reachable (fneq e1 e2)
  | ltR (e1 e2 : Expression) : Reachable (flt e1 e2)
  | leqR (e1 e2 : Expression) : Reachable (fleq e1 e2)
  | gtR (e1 e2 : Expression) : Reachable (fgt e1 e2)
  | geqR (e1 e2 : Expression) : Reachable (fgeq e1 e2)
  | andR {f1 f2 : Formula} : Reachable f1 → Reachable f2 → Reachable (land f1 f2)
  | orR {f1 f2 : Formula} : Reachable f1 → Reachable f2 → Reachable (lor f1 f2)
  | notR {f : Formula} : Reachable f → Reachable (lnot f)
  | forallR (vs : Variables) {f : Formula} : Reachable f → Reachable (fforall vs f)

/-- C10: every formula reachable through the public constructors is in
canonical form at every node. -/
theorem reachable_canonical : ∀ f : Formula, Reachable f → f.Canonical = true := by
  intro f h
  induction h with
  | trueR => rfl
  | falseR => rfl
  | eqR e1 e2 =>
    by_cases he : e1 = e2
    · subst he
      simp [feq, Expression.EqualTo, Formula.Canonical]
    · simp [feq, Expression.EqualTo, he, Formula.Canonical]
  | neqR e1 e2 =>
    by_cases he : e1 = e2
    · subst he
      simp [fneq, Expression.EqualTo, Formula.Canonical]
    · simp [fneq, Expression.EqualTo, he, Formula.Canonical]
  | ltR e1 e2 =>
    by_cases he : e1 = e2
    · subst he
      simp [flt, Expression.EqualTo, Formula.Canonical]
    · simp [flt, Expression.EqualTo, he, Formula.Canonical]
  | leqR e1 e2 =>
    by_cases he : e1 = e2
    · subst he
      simp [fleq, Expression.EqualTo, Formula.Canonical]
    · simp [fleq, Expression.EqualTo, he, Formula.Canonical]
  | gtR e1 e2 =>
    by_cases he : e1 = e2
    · subst he
      simp [fgt, Expression.EqualTo, Formula.Canonical]
    · simp [fgt, Expression.EqualTo, he, Formula.Canonical]
  | geqR e1 e2 =>
    by_cases he : e1 = e2
    · subst he
      simp [fgeq, Expression.EqualTo, Formula.Canonical]
    · simp [fgeq, Expression.EqualTo, he, Formula.Canonical]
  | andR h1 h2 ih1 ih2 =>
    rw [land_cases]
    split
    · rfl
    · next hne =>
      push_neg at hne
      split
      · exact ih2
      · split
        · exact ih1
        · next h1t h2t =>
          simp only [Formula.Canonical, Bool.and_eq_true, bne_iff_ne, ne_eq,
            Formula.kind_True_iff, Formula.kind_False_iff]
          exact ⟨⟨⟨⟨⟨h1t, hne.1⟩, h2t⟩, hne.2⟩, ih1⟩, ih2⟩
  | orR h1 h2 ih1 ih2 =>
    rw [lor_cases]
    split
    · rfl
    · next hne =>
      push_neg at hne
      split
      · exact ih2
      · split
        · exact ih1
        · next h1f h2f =>
          simp only [Formula.Canonical, Bool.and_eq_true, bne_iff_ne, ne_eq,
            Formula.kind_True_iff, Formula.kind_False_iff]
          exact ⟨⟨⟨⟨⟨hne.1, h1f⟩, hne.2⟩, h2f⟩, ih1⟩, ih2⟩
  | notR h ih =>
    rw [lnot_cases]
    split
    · rfl
    · split
      · rfl
      · next hT hF =>
        simp only [Formula.Canonical, Bool.and_eq_true, bne_iff_ne, ne_eq,
          Formula.kind_True_iff, Formula.kind_False_iff]
        exact ⟨⟨hT, hF⟩, ih⟩
  | forallR vs h ih => exact ih

/-- Witness for C10 at a concretely built formula. -/
theorem reachable_canonical_witness :
    Formula.Canonical (land (flt (Expression.var ⟨0⟩) (Expression.const 1))
      (fgeq (Expression.var ⟨1⟩) (Expression.const 2))) = true :=
  reachable_canonical _
    (Reachable.andR (Reachable.ltR (Expression.var ⟨0⟩) (Expression.const 1))
      (Reachable.geqR (Expression.var ⟨1⟩) (Expression.const 2)))

end DrakeSymbolic
